import Mathlib

/-!
Shallow embedding of the glox tree-walking Lox interpreter (scanner,
resolver, runtime) and proofs about the claims of its specification.

Modelling conventions, stated once:
* Go `float64` is modelled by `Lox.GoFloat`: finite doubles are represented
  by rationals (IEEE rounding and overflow are not modelled; no claim here
  depends on rounding), plus the two infinities and NaN.  The IEEE special
  cases of `+ - * /` `< <= >` and of `==` (NaN is unequal to everything,
  including itself) are modelled faithfully.
* Go maps are modelled by association lists with insert-overwrite; Go map
  iteration order is unspecified, the association list iterates in insertion
  order (the programs examined below never depend on the order).
* Go `panic`/`recover` is modelled by an error value threaded next to the
  interpreter state: `RunErr.rte` is the typed `runtimeError` panic,
  `RunErr.ret` the `returnable` panic, and `RunErr.goPanic` any untyped Go
  panic (failed type assertion, nil dereference, explicit `panic(string)`).
  State changes performed before a panic survive it, as in Go.
* Environments and instances are mutable shared objects in Go; they live in
  heaps (`IState.envs`, `IState.insts`) addressed by `Nat`, so a Go pointer
  is an address.
* Recursion of the evaluator is bounded by explicit fuel; `RunErr.fuelOut`
  is a modelling artifact that no theorem below depends on, except to make
  universally-quantified statements hold for every fuel value.
-/

namespace Lox

/-- Model of a Go `float64` value: finite doubles as rationals, plus
infinities and NaN. -/
inductive GoFloat where
  | finite (q : ℚ)
  | inf (neg : Bool)
  | nan
  deriving DecidableEq, Repr

namespace GoFloat

/-- Go `==` on `float64` (also what `reflect.DeepEqual` uses on floats):
NaN is unequal to everything, including itself. -/
def ieeeEq : GoFloat → GoFloat → Bool
  | finite a, finite b => decide (a = b)
  | inf s, inf t => decide (s = t)
  | _, _ => false

/-- Go `+` on `float64`. -/
def add : GoFloat → GoFloat → GoFloat
  | nan, _ => nan
  | _, nan => nan
  | inf s, inf t => if s = t then inf s else nan
  | inf s, finite _ => inf s
  | finite _, inf t => inf t
  | finite a, finite b => finite (a + b)

/-- Go unary `-` on `float64`. -/
def neg : GoFloat → GoFloat
  | nan => nan
  | inf s => inf (!s)
  | finite a => finite (-a)

/-- Go `-` on `float64`. -/
def sub (a b : GoFloat) : GoFloat := a.add b.neg

/-- Go `*` on `float64`. -/
def mul : GoFloat → GoFloat → GoFloat
  | nan, _ => nan
  | _, nan => nan
  | inf s, inf t => inf (s ≠ t)
  | inf s, finite q => if q = 0 then nan else inf (s ≠ decide (q < 0))
  | finite q, inf t => if q = 0 then nan else inf (t ≠ decide (q < 0))
  | finite a, finite b => finite (a * b)

/-- Go `/` on `float64`: division by zero yields an infinity or NaN,
never an error. -/
def div : GoFloat → GoFloat → GoFloat
  | nan, _ => nan
  | _, nan => nan
  | inf _, inf _ => nan
  | inf s, finite q => inf (s ≠ decide (q < 0))
  | finite _, inf _ => finite 0
  | finite a, finite b =>
      if b = 0 then (if a = 0 then nan else inf (decide (a < 0)))
      else finite (a / b)

/-- Go `<` on `float64`: any comparison with NaN is false. -/
def lt : GoFloat → GoFloat → Bool
  | nan, _ => false
  | _, nan => false
  | inf s, inf t => s && !t
  | inf s, finite _ => s
  | finite _, inf t => !t
  | finite a, finite b => decide (a < b)

/-- Go `<=` on `float64`. -/
def le (a b : GoFloat) : Bool := a.ieeeEq b || a.lt b

/-- Go `>` on `float64`. -/
def gt (a b : GoFloat) : Bool := b.lt a

/-- Go `>=` on `float64`. -/
def ge (a b : GoFloat) : Bool := b.le a

end GoFloat

/-- The token taxonomy of scanner.go. -/
inductive TokenType where
  | LEFT_PAREN | RIGHT_PAREN | LEFT_BRACE | RIGHT_BRACE
  | COMMA | DOT | MINUS | PLUS | SEMICOLON | SLASH | STAR
  | BANG | BANG_EQUAL | EQUAL | EQUAL_EQUAL
  | GREATER | GREATER_EQUAL | LESS | LESS_EQUAL
  | IDENTIFIER | STRING | NUMBER
  | AND | CLASS | ELSE | FALSE | FUN | FOR | IF | NIL
  | OR | PRINT | RETURN | SUPER | THIS | TRUE | VAR | WHILE
  | EOF
  deriving DecidableEq, Repr

/-- A token literal (`Token.Literal interface{}`): the scanner stores a
float64 for NUMBER tokens, a string for STRING tokens, nil otherwise. -/
inductive TokLit where
  | num (f : GoFloat)
  | str (s : String)
  deriving DecidableEq, Repr

/-- `Token` of scanner.go. -/
structure Token where
  type : TokenType
  lexeme : String
  literal : Option TokLit
  line : Int
  deriving DecidableEq, Repr

/-- The value of a `Literal` expression (`interface{}` in the Go AST):
a number, string, boolean, or nil. -/
inductive Prim where
  | num (f : GoFloat)
  | str (s : String)
  | b (x : Bool)
  | nilP
  deriving DecidableEq, Repr

mutual
/-- The expression AST of expr.go.  Go keys the resolver's table
(`map[Expr]int`) by these values, comparing them structurally, which this
type's structural equality models exactly (the table keys that actually
occur — `variable`, `assign`, `thisE`, `superE` with literal-free
contents — are hashable in Go). -/
inductive Expr where
  | assign (name : Token) (value : Expr)
  | binary (left : Expr) (operator : Token) (right : Expr)
  | call (callee : Expr) (paren : Token) (args : ExprList)
  | get (obj : Expr) (name : Token)
  | set (obj : Expr) (name : Token) (value : Expr)
  | grouping (e : Expr)
  | literal (v : Prim)
  | logical (left : Expr) (operator : Token) (right : Expr)
  | superE (keyword : Token) (method : Token)
  | thisE (keyword : Token)
  | unary (operator : Token) (right : Expr)
  | variable (name : Token) (unique : Int)
  deriving DecidableEq, Repr
/-- A `[]Expr` argument list. -/
inductive ExprList where
  | nil
  | cons (head : Expr) (tail : ExprList)
  deriving DecidableEq, Repr
end

mutual
/-- The statement AST of stmt.go.  `ClassStmt.Superclass *Variable` is the
name token and uid of the superclass `Variable` node. -/
inductive Stmt where
  | exprS (e : Expr)
  | classS (name : Token) (superC : Option (Token × Int)) (methods : Methods)
  | funcS (name : Token) (params : List Token) (body : StmtList)
  | ifS (cond : Expr) (thenB : Stmt) (elseB : OptStmt)
  | printS (e : Expr)
  | returnS (keyword : Token) (value : Option Expr)
  | whileS (cond : Expr) (body : Stmt)
  | block (stmts : StmtList)
  | varS (name : Token) (initializer : Option Expr)
  deriving DecidableEq, Repr
/-- A nullable statement (the `Else` branch of `IfStmt`). -/
inductive OptStmt where
  | noneS
  | someS (s : Stmt)
  deriving DecidableEq, Repr
/-- A `[]Stmt` statement list. -/
inductive StmtList where
  | nil
  | cons (head : Stmt) (tail : StmtList)
  deriving DecidableEq, Repr
/-- A `[]FunctionStmt` method list: each entry is (name, params, body). -/
inductive Methods where
  | nil
  | cons (name : Token) (params : List Token) (body : StmtList) (tail : Methods)
  deriving DecidableEq, Repr
end

/-- `FunctionStmt` of stmt.go: a function declaration. -/
structure FunctionStmt where
  name : Token
  params : List Token
  body : StmtList
  deriving DecidableEq, Repr

/-- Convert a Lean list of statements into a `StmtList` (notation help for
writing concrete programs). -/
def stmtsOf : List Stmt → StmtList
  | [] => .nil
  | s :: rest => .cons s (stmtsOf rest)

/-- Convert a Lean list of expressions into an `ExprList`. -/
def argsOf : List Expr → ExprList
  | [] => .nil
  | e :: rest => .cons e (argsOf rest)

/-- Association-list lookup, the model of Go map indexing. -/
def assocGet {κ ν : Type} [DecidableEq κ] : List (κ × ν) → κ → Option ν
  | [], _ => none
  | (k2, v) :: rest, k => if k2 = k then some v else assocGet rest k

/-- Association-list insert-or-overwrite, the model of Go map assignment. -/
def assocSet {κ ν : Type} [DecidableEq κ] : List (κ × ν) → κ → ν → List (κ × ν)
  | [], k, v => [(k, v)]
  | (k2, w) :: rest, k, v =>
      if k2 = k then (k2, v) :: rest else (k2, w) :: assocSet rest k v

/-- `Function` of function.go: declaration, captured environment (the heap
address standing for the Go `*environment` pointer), is-initializer flag. -/
structure FuncVal where
  decl : FunctionStmt
  closure : Nat
  isInitializer : Bool
  deriving DecidableEq, Repr

mutual
/-- `Class` of parser.go's runtime part: name, method map, superclass
pointer.  `VisitClassStmt` always stores `&superclass`, so a class without
a declared superclass points at the zero `Class`; `zeroCls` below models
that zero value. -/
inductive ClassVal where
  | mk (name : String) (methods : MethodVals) (superC : OptClassVal)
  deriving DecidableEq, Repr
/-- A nullable `*Class`. -/
inductive OptClassVal where
  | none
  | some (c : ClassVal)
  deriving DecidableEq, Repr
/-- The `map[string]Function` method table (insertion-ordered assoc list). -/
inductive MethodVals where
  | nil
  | cons (name : String) (fn : FuncVal) (tail : MethodVals)
  deriving DecidableEq, Repr
end

/-- The zero value of Go's `Class` struct. -/
def zeroCls : ClassVal := .mk "" .nil .none

/-- A runtime value (`interface{}` in the Go interpreter): nil, boolean,
number, string, user function, class, the clock built-in, or a class
instance (`*Instance` modelled by a heap address). -/
inductive Value where
  | nilV
  | boolV (b : Bool)
  | numV (f : GoFloat)
  | strV (s : String)
  | funcV (fn : FuncVal)
  | classV (c : ClassVal)
  | clockV
  | instV (addr : Nat)
  deriving DecidableEq, Repr

/-- `Instance` of parser.go's runtime part: class and field map. -/
structure InstVal where
  cls : ClassVal
  fields : List (String × Value)
  deriving DecidableEq, Repr

/-- `environment` of environment.go: local map plus enclosing pointer. -/
structure Env where
  envMap : List (String × Value)
  enclosing : Option Nat
  deriving DecidableEq, Repr

/-- The non-`Stdout` state of `Interpreter`: the environment heap, the
instance heap, the current environment address (`i.env`), the globals
address (`i.globals`), the resolution table (`i.localDistance`), and the
lines printed so far. -/
structure IState where
  envs : List Env
  insts : List InstVal
  env : Nat
  globals : Nat
  table : List (Expr × Nat)
  output : List String
  deriving Repr

/-- The ways an evaluation step can abort: a `runtimeError` panic, a
`returnable` panic, an untyped Go panic, or fuel exhaustion (modelling
artifact). -/
inductive RunErr where
  | rte (line : Int) (msg : String)
  | ret (v : Value)
  | goPanic (msg : String)
  | fuelOut
  deriving DecidableEq, Repr

/-- Method lookup in a `map[string]Function`. -/
def MethodVals.find : MethodVals → String → Option FuncVal
  | .nil, _ => Option.none
  | .cons n f rest, k => if n = k then Option.some f else rest.find k

/-- `Class.findMethod`: check the class's own map, then recurse into the
superclass. -/
def ClassVal.findMethod : ClassVal → String → Option FuncVal
  | .mk _ ms sup, k =>
      match ms.find k with
      | Option.some f => Option.some f
      | Option.none =>
          match sup with
          | .none => Option.none
          | .some c => c.findMethod k

/-- `ClassVal.name` accessor. -/
def ClassVal.cname : ClassVal → String
  | .mk n _ _ => n

/-- `Function.Arity`: the number of declared parameters. -/
def FuncVal.arity (f : FuncVal) : Nat := f.decl.params.length

/-- `Class.Arity`: the arity of `init` if present, else 0. -/
def ClassVal.arity (c : ClassVal) : Nat :=
  match c.findMethod "init" with
  | Option.some f => f.arity
  | Option.none => 0

/-- `Interpreter._isTruthy`: nil and false are falsy, all else truthy. -/
def truthy : Value → Bool
  | .nilV => false
  | .boolV b => b
  | _ => true

/-- Read a heap cell. -/
def heapGet {α : Type} (h : List α) (a : Nat) : Option α := h.get? a

/-- Overwrite a heap cell (no-op when out of range; addresses handed out
by `heapAlloc` are always in range). -/
def heapSet {α : Type} (h : List α) (a : Nat) (x : α) : List α := h.set a x

/-- Allocate a fresh heap cell, returning its address. -/
def heapAlloc {α : Type} (h : List α) (x : α) : Nat × List α :=
  (h.length, h ++ [x])

/-- Go `%q` on a string (no escapes needed by the sources examined). -/
def qs (s : String) : String := "\"" ++ s ++ "\""

/-- `environment.define`: insert into the local map of the environment at
address `a`. -/
def envDefine (st : IState) (a : Nat) (n : String) (v : Value) : IState :=
  match heapGet st.envs a with
  | Option.some e =>
      { st with envs := heapSet st.envs a { e with envMap := assocSet e.envMap n v } }
  | Option.none => st

/-- `environment.ancestor`: walk `distance` enclosing links from address
`a`; `Option.none` models walking off the chain (a nil `*environment`,
whose dereference is an untyped Go panic at the use site). -/
def ancestorA (st : IState) : Nat → Nat → Option Nat
  | a, 0 => Option.some a
  | a, d+1 =>
      match heapGet st.envs a with
      | Option.some e =>
          match e.enclosing with
          | Option.some b => ancestorA st b d
          | Option.none => Option.none
      | Option.none => Option.none

/-- `environment.getAt`: read the binding for `tok` exactly `distance`
environments up from address `startA`. -/
def envGetAt (st : IState) (startA : Nat) (distance : Nat) (tok : Token) :
    Except RunErr Value :=
  match ancestorA st startA distance with
  | Option.none => .error (.goPanic "nil environment dereference")
  | Option.some a =>
      match heapGet st.envs a with
      | Option.none => .error (.goPanic "nil environment dereference")
      | Option.some e =>
          match assocGet e.envMap tok.lexeme with
          | Option.some v => .ok v
          | Option.none =>
              .error (.rte tok.line ("Undefined (local) variable " ++ qs tok.lexeme))

/-- `environment.assignAt`: overwrite the binding for `tok` exactly
`distance` environments up; error if the name is unbound there. -/
def envAssignAt (st : IState) (startA : Nat) (distance : Nat) (tok : Token)
    (v : Value) : Except RunErr Unit × IState :=
  match ancestorA st startA distance with
  | Option.none => (.error (.goPanic "nil environment dereference"), st)
  | Option.some a =>
      match heapGet st.envs a with
      | Option.none => (.error (.goPanic "nil environment dereference"), st)
      | Option.some e =>
          match assocGet e.envMap tok.lexeme with
          | Option.some _ =>
              (.ok (), { st with
                envs := heapSet st.envs a { e with envMap := assocSet e.envMap tok.lexeme v } })
          | Option.none =>
              (.error (.rte tok.line
                ("Undefined (local) variable " ++ qs tok.lexeme ++ " in assignment.")), st)

/-- `environment.get`: dynamic lookup walking the enclosing chain; at the
root (no enclosing) an unbound name is a runtime error.  `fuel` bounds the
chain length (callers pass more than the heap size). -/
def envGetDyn (st : IState) : Nat → Nat → Token → Except RunErr Value
  | 0, _, _ => .error .fuelOut
  | f+1, a, tok =>
      match heapGet st.envs a with
      | Option.none => .error (.goPanic "nil environment dereference")
      | Option.some e =>
          match assocGet e.envMap tok.lexeme with
          | Option.some v => .ok v
          | Option.none =>
              match e.enclosing with
              | Option.some b => envGetDyn st f b tok
              | Option.none =>
                  .error (.rte tok.line
                    ("Undefined (global) variable " ++ qs tok.lexeme ++ "."))

/-- `environment.assign`: dynamic assignment walking the enclosing chain;
at the root an unbound name is a runtime error. -/
def envAssignDyn (st : IState) : Nat → Nat → Token → Value →
    Except RunErr Unit × IState
  | 0, _, _, _ => (.error .fuelOut, st)
  | f+1, a, tok, v =>
      match heapGet st.envs a with
      | Option.none => (.error (.goPanic "nil environment dereference"), st)
      | Option.some e =>
          match assocGet e.envMap tok.lexeme with
          | Option.some _ =>
              (.ok (), { st with
                envs := heapSet st.envs a { e with envMap := assocSet e.envMap tok.lexeme v } })
          | Option.none =>
              match e.enclosing with
              | Option.some b => envAssignDyn st f b tok v
              | Option.none =>
                  (.error (.rte tok.line
                    ("Undefined (global) variable " ++ qs tok.lexeme ++ " in assignment.")), st)

mutual
/-- Model of `reflect.DeepEqual` on two runtime values, as used by the
`==`/`!=` cases of `VisitBinary`.  Scalars compare by Go `==` (NaN unequal
to itself); same-pointer instances are equal at once (DeepEqual's pointer
shortcut); distinct instances compare class and field maps recursively,
bounded by `fuel` (DeepEqual terminates on the finite acyclic heaps that
occur here; cyclic-heap cycle detection is not modelled).  Function and
class values compare structurally, with a captured-environment *pointer*
compared by address; `reflect.DeepEqual` would additionally deep-compare
environments behind distinct pointers, which no claim examined here
depends on. -/
def deepEqualV : Nat → List InstVal → Value → Value → Bool
  | _, _, .nilV, .nilV => true
  | _, _, .boolV a, .boolV b => decide (a = b)
  | _, _, .numV a, .numV b => a.ieeeEq b
  | _, _, .strV a, .strV b => decide (a = b)
  | _, _, .clockV, .clockV => true
  | _, _, .funcV a, .funcV b => decide (a = b)
  | _, _, .classV a, .classV b => decide (a = b)
  | 0, _, .instV a, .instV b => decide (a = b)
  | f+1, heap, .instV a, .instV b =>
      decide (a = b) ||
        (match heapGet heap a, heapGet heap b with
         | Option.some ia, Option.some ib =>
             decide (ia.cls = ib.cls) && deepEqualFields f heap ia.fields ib.fields
         | _, _ => false)
  | _, _, _, _ => false
/-- `reflect.DeepEqual` on two field maps: equal size and pointwise
deeply-equal entries (checked in both directions, which for maps with
unique keys coincides with Go's one-direction check over equal sizes). -/
def deepEqualFields : Nat → List InstVal → List (String × Value) →
    List (String × Value) → Bool
  | 0, _, _, _ => false
  | f+1, heap, a, b =>
      decide (a.length = b.length) && fieldsIncluded f heap a b &&
        fieldsIncluded f heap b a
/-- Every entry of `a` is present in `b` with a deeply-equal value. -/
def fieldsIncluded : Nat → List InstVal → List (String × Value) →
    List (String × Value) → Bool
  | _, _, [], _ => true
  | 0, _, _ :: _, _ => false
  | f+1, heap, (k, v) :: rest, b =>
      (match assocGet b k with
       | Option.some w => deepEqualV f heap v w
       | Option.none => false) && fieldsIncluded f heap rest b
end

/-- Go `%q` rendering of an operand inside an error message (the `%!q`
forms stand for `fmt`'s handling of non-string operands; the claims only
inspect the fixed parts of these messages). -/
def fmtQV : Value → String
  | .strV s => qs s
  | .numV _ => "%!q(float64)"
  | .boolV b => "%!q(bool=" ++ (if b then "true" else "false") ++ ")"
  | .nilV => "%!q(<nil>)"
  | _ => "%!q(value)"

/-- The message of `Interpreter.checkNumberOperands`. -/
def numErrMsg (opTok : Token) (l r : Value) : String :=
  qs opTok.lexeme ++ ", operands " ++ fmtQV l ++ " and " ++ fmtQV r ++
    " must be numbers"

/-- The message of `Interpreter.checkStringOperands`. -/
def strErrMsg (opTok : Token) (l r : Value) : String :=
  qs opTok.lexeme ++ ", operands " ++ fmtQV l ++ " and " ++ fmtQV r ++
    " must be strings"

/-- Go `%T` of a runtime value. -/
def typeNameOf : Value → String
  | .nilV => "<nil>"
  | .boolV _ => "bool"
  | .numV _ => "float64"
  | .strV _ => "string"
  | .funcV _ => "main.Function"
  | .classV _ => "main.Class"
  | .clockV => "main.ClockBuiltin"
  | .instV _ => "*main.Instance"

/-- The default-case message of the `PLUS` arm of `VisitBinary`. -/
def plusTypeMsg (l : Value) : String :=
  "'+' can operate on numbers or strings, found " ++ typeNameOf l

/-- The operator dispatch of `Interpreter.VisitBinary`, applied to the two
already-evaluated operand values.  `fuel` bounds the `DeepEqual` recursion
of the equality cases. -/
def binaryOp (fuel : Nat) (heap : List InstVal) (opTok : Token)
    (left right : Value) : Except RunErr Value :=
  match opTok.type with
  | .MINUS =>
      match left, right with
      | .numV a, .numV b => .ok (.numV (a.sub b))
      | _, _ => .error (.rte opTok.line (numErrMsg opTok left right))
  | .SLASH =>
      match left, right with
      | .numV a, .numV b => .ok (.numV (a.div b))
      | _, _ => .error (.rte opTok.line (numErrMsg opTok left right))
  | .STAR =>
      match left, right with
      | .numV a, .numV b => .ok (.numV (a.mul b))
      | _, _ => .error (.rte opTok.line (numErrMsg opTok left right))
  | .PLUS =>
      match left with
      | .numV a =>
          match right with
          | .numV b => .ok (.numV (a.add b))
          | _ => .error (.rte opTok.line (numErrMsg opTok left right))
      | .strV s =>
          match right with
          | .strV t => .ok (.strV (s ++ t))
          | _ => .error (.rte opTok.line (strErrMsg opTok left right))
      | _ => .error (.rte opTok.line (plusTypeMsg left))
  | .GREATER =>
      match left, right with
      | .numV a, .numV b => .ok (.boolV (a.gt b))
      | _, _ => .error (.rte opTok.line (numErrMsg opTok left right))
  | .GREATER_EQUAL =>
      match left, right with
      | .numV a, .numV b => .ok (.boolV (a.ge b))
      | _, _ => .error (.rte opTok.line (numErrMsg opTok left right))
  | .LESS =>
      match left, right with
      | .numV a, .numV b => .ok (.boolV (a.lt b))
      | _, _ => .error (.rte opTok.line (numErrMsg opTok left right))
  | .LESS_EQUAL =>
      match left, right with
      | .numV a, .numV b => .ok (.boolV (a.le b))
      | _, _ => .error (.rte opTok.line (numErrMsg opTok left right))
  | .BANG_EQUAL => .ok (.boolV (!deepEqualV fuel heap left right))
  | .EQUAL_EQUAL => .ok (.boolV (deepEqualV fuel heap left right))
  | _ => .error (.goPanic "VisitBinary hit intended-unreachable code")

/-- The operator dispatch of `Interpreter.VisityUnary`: `-` type-asserts a
float64 (an untyped panic on other values), `!` negates truthiness. -/
def unaryOp (opTok : Token) (right : Value) : Except RunErr Value :=
  match opTok.type with
  | .MINUS =>
      match right with
      | .numV f => .ok (.numV f.neg)
      | _ => .error (.goPanic "interface conversion to float64")
  | .BANG =>
      .ok (.boolV
        (match right with
         | .nilV => true
         | .boolV b => !b
         | _ => false))
  | _ => .error (.goPanic "Interpreter hit intended-unreachable code in VisitUnary")

/-- `fmt.Fprintln`'s text for a finite number (Go prints integral doubles
without a decimal point; non-integral rendering is approximated — no claim
prints one). -/
def floatText : GoFloat → String
  | .finite q => if q.den = 1 then toString q.num else toString q.num ++ "/" ++ toString q.den
  | .inf s => if s then "-Inf" else "+Inf"
  | .nan => "NaN"

/-- `fmt.Fprintln`'s text for a runtime value, as produced by `print`. -/
def stringOfValue (heap : List InstVal) : Value → String
  | .nilV => "<nil>"
  | .boolV b => if b then "true" else "false"
  | .numV f => floatText f
  | .strV s => s
  | .funcV fn => "<fn " ++ fn.decl.name.lexeme ++ ">"
  | .classV c => c.cname
  | .clockV => "{}"
  | .instV a =>
      match heapGet heap a with
      | Option.some i => i.cls.cname ++ " instance"
      | Option.none => "<nil>"

/-- The zero-value token `Token{Lexeme: "this"}` used by `VisitSuper` and
`Function.Call` (zero `TokenType` is `LEFT_PAREN`, zero line is 0). -/
def thisTok : Token := ⟨.LEFT_PAREN, "this", Option.none, 0⟩

/-- `Function.bindMethodToInstance`: a fresh environment defining `this`,
enclosing the function's captured environment. -/
def bindMethod (st : IState) (fn : FuncVal) (addr : Nat) : FuncVal × IState :=
  let p := heapAlloc st.envs
    { envMap := [("this", Value.instV addr)], enclosing := Option.some fn.closure }
  ({ fn with closure := p.1 }, { st with envs := p.2 })

/-- `Instance.Get`: fields first, then class methods bound to the
instance, else an `Undefined property` runtime error (as wrapped by
`VisitGet`). -/
def instanceGet (st : IState) (addr : Nat) (name : Token) :
    Except RunErr Value × IState :=
  match heapGet st.insts addr with
  | Option.none => (.error (.goPanic "nil instance dereference"), st)
  | Option.some i =>
      match assocGet i.fields name.lexeme with
      | Option.some v => (.ok v, st)
      | Option.none =>
          match i.cls.findMethod name.lexeme with
          | Option.some m =>
              let p := bindMethod st m addr
              (.ok (.funcV p.1), p.2)
          | Option.none =>
              (.error (.rte name.line
                ("Undefined property " ++ qs name.lexeme ++ ".")), st)

/-- `Instance.Set`: write to the field map. -/
def instanceSet (st : IState) (addr : Nat) (name : Token) (v : Value) : IState :=
  match heapGet st.insts addr with
  | Option.none => st
  | Option.some i =>
      { st with insts := heapSet st.insts addr ({ i with fields := assocSet i.fields name.lexeme v }) }

/-- `Interpreter.lookupVariable`: consult the resolution table keyed by the
expression node itself; with a recorded depth read via `getAt`, otherwise
read the global environment dynamically. -/
def lookupVariable (st : IState) (e : Expr) : Except RunErr Value :=
  match e with
  | .variable n _ =>
      (match assocGet st.table e with
       | Option.some d => envGetAt st st.env d n
       | Option.none => envGetDyn st (st.envs.length + 1) st.globals n)
  | .thisE k =>
      (match assocGet st.table e with
       | Option.some d => envGetAt st st.env d k
       | Option.none => envGetDyn st (st.envs.length + 1) st.globals k)
  | _ => .error (.goPanic "hit intended-unreachable code")

/-- The parameter-binding loop of `Function.Call`: iterate the argument
values, defining the positionally-corresponding parameter name (one
argument too many would index out of range — an untyped Go panic). -/
def bindParams : IState → Nat → List Token → List Value →
    Except RunErr Unit × IState
  | st, _, _, [] => (.ok (), st)
  | st, _, [], _ :: _ => (.error (.goPanic "index out of range"), st)
  | st, a, p :: ps, v :: vs => bindParams (envDefine st a p.lexeme v) a ps vs

/-- Insert-or-overwrite into a method table (Go map assignment). -/
def MethodVals.insert : MethodVals → String → FuncVal → MethodVals
  | .nil, k, f => .cons k f .nil
  | .cons n g rest, k, f =>
      if n = k then .cons n f rest else .cons n g (rest.insert k f)

/-- The method-construction loop of `VisitClassStmt`: each method closes
over `envA`, and a method named `init` gets the is-initializer flag. -/
def buildMethods (envA : Nat) : Methods → MethodVals → MethodVals
  | .nil, acc => acc
  | .cons name params body rest, acc =>
      buildMethods envA rest
        (acc.insert name.lexeme
          ⟨⟨name, params, body⟩, envA, decide (name.lexeme = "init")⟩)

mutual
/-- `Interpreter.evaluate` / the expression visitors. -/
def evalExpr : Nat → Expr → IState → Except RunErr Value × IState
  | 0, _, st => (.error .fuelOut, st)
  | f+1, e, st =>
    match e with
    | .literal v =>
        (.ok (match v with
              | .num x => .numV x
              | .str s => .strV s
              | .b x => .boolV x
              | .nilP => .nilV), st)
    | .grouping inner => evalExpr f inner st
    | .unary op r =>
        (match evalExpr f r st with
         | (.error er, st1) => (.error er, st1)
         | (.ok rv, st1) => (unaryOp op rv, st1))
    | .binary l op r =>
        (match evalExpr f l st with
         | (.error er, st1) => (.error er, st1)
         | (.ok lv, st1) =>
             match evalExpr f r st1 with
             | (.error er, st2) => (.error er, st2)
             | (.ok rv, st2) => (binaryOp f st2.insts op lv rv, st2))
    | .logical l op r =>
        (match evalExpr f l st with
         | (.error er, st1) => (.error er, st1)
         | (.ok lv, st1) =>
             if (if op.type = .OR then truthy lv else !truthy lv)
             then (.ok lv, st1)
             else evalExpr f r st1)
    | .variable _ _ => (lookupVariable st e, st)
    | .thisE _ => (lookupVariable st e, st)
    | .assign name value =>
        (match evalExpr f value st with
         | (.error er, st1) => (.error er, st1)
         | (.ok v, st1) =>
             match assocGet st1.table (Expr.assign name value) with
             | Option.some d =>
                 (match envAssignAt st1 st1.env d name v with
                  | (.ok _, st2) => (.ok v, st2)
                  | (.error er, st2) => (.error er, st2))
             | Option.none =>
                 (match envAssignDyn st1 (st1.envs.length + 1) st1.globals name v with
                  | (.ok _, st2) => (.ok v, st2)
                  | (.error er, st2) => (.error er, st2)))
    | .call callee paren args =>
        (match evalExpr f callee st with
         | (.error er, st1) => (.error er, st1)
         | (.ok cv, st1) =>
             match evalArgs f args st1 with
             | (.error er, st2) => (.error er, st2)
             | (.ok avs, st2) => callValue f cv avs paren.line st2)
    | .get obj name =>
        (match evalExpr f obj st with
         | (.error er, st1) => (.error er, st1)
         | (.ok ov, st1) =>
             match ov with
             | .instV a => instanceGet st1 a name
             | _ => (.error (.rte name.line "Only class instances have properties."), st1))
    | .set obj name value =>
        (match evalExpr f obj st with
         | (.error er, st1) => (.error er, st1)
         | (.ok ov, st1) =>
             match ov with
             | .instV a =>
                 (match evalExpr f value st1 with
                  | (.error er, st2) => (.error er, st2)
                  | (.ok v, st2) => (.ok v, instanceSet st2 a name v))
             | _ => (.error (.rte name.line "Only class instances have fields."), st1))
    | .superE kw m =>
        let distance := (assocGet st.table (Expr.superE kw m)).getD 0
        (match envGetAt st st.env distance kw with
         | .error er => (.error er, st)
         | .ok sv =>
             match sv with
             | .classV sc =>
                 (match sc.findMethod m.lexeme with
                  | Option.none =>
                      (.error (.rte m.line ("Undefined property " ++ qs m.lexeme ++ ".")), st)
                  | Option.some meth =>
                      match envGetAt st st.env (distance - 1) thisTok with
                      | .error er => (.error er, st)
                      | .ok iv =>
                          match iv with
                          | .instV a =>
                              let p := bindMethod st meth a
                              (.ok (.funcV p.1), p.2)
                          | _ => (.error (.goPanic "interface conversion to *Instance"), st))
             | _ => (.error (.goPanic "interface conversion to Class"), st))

/-- The left-to-right argument-evaluation loop of `VisitCall`. -/
def evalArgs : Nat → ExprList → IState → Except RunErr (List Value) × IState
  | 0, _, st => (.error .fuelOut, st)
  | _+1, .nil, st => (.ok [], st)
  | f+1, .cons e rest, st =>
      match evalExpr f e st with
      | (.error er, st1) => (.error er, st1)
      | (.ok v, st1) =>
          match evalArgs f rest st1 with
          | (.error er, st2) => (.error er, st2)
          | (.ok vs, st2) => (.ok (v :: vs), st2)

/-- `Interpreter.execute` / the statement visitors. -/
def execStmt : Nat → Stmt → IState → Except RunErr Unit × IState
  | 0, _, st => (.error .fuelOut, st)
  | f+1, s, st =>
    match s with
    | .exprS e =>
        (match evalExpr f e st with
         | (.error er, st1) => (.error er, st1)
         | (.ok _, st1) => (.ok (), st1))
    | .printS e =>
        (match evalExpr f e st with
         | (.error er, st1) => (.error er, st1)
         | (.ok v, st1) =>
             (.ok (), { st1 with output := st1.output ++ [stringOfValue st1.insts v] }))
    | .varS name init =>
        (match init with
         | Option.some e =>
             (match evalExpr f e st with
              | (.error er, st1) => (.error er, st1)
              | (.ok v, st1) => (.ok (), envDefine st1 st1.env name.lexeme v))
         | Option.none => (.ok (), envDefine st st.env name.lexeme .nilV))
    | .funcS name params body =>
        (.ok (), envDefine st st.env name.lexeme
          (.funcV ⟨⟨name, params, body⟩, st.env, false⟩))
    | .block stmts =>
        let p := heapAlloc st.envs { envMap := [], enclosing := Option.some st.env }
        executeBlock f stmts p.1 { st with envs := p.2 }
    | .ifS cond thenB elseB =>
        (match evalExpr f cond st with
         | (.error er, st1) => (.error er, st1)
         | (.ok cv, st1) =>
             if truthy cv then execStmt f thenB st1
             else match elseB with
                  | .someS eb => execStmt f eb st1
                  | .noneS => (.ok (), st1))
    | .whileS cond body =>
        (match evalExpr f cond st with
         | (.error er, st1) => (.error er, st1)
         | (.ok cv, st1) =>
             if truthy cv then
               match execStmt f body st1 with
               | (.error er, st2) => (.error er, st2)
               | (.ok _, st2) => execStmt f (.whileS cond body) st2
             else (.ok (), st1))
    | .returnS _ value =>
        (match value with
         | Option.some e =>
             (match evalExpr f e st with
              | (.error er, st1) => (.error er, st1)
              | (.ok v, st1) => (.error (.ret v), st1))
         | Option.none => (.error (.ret .nilV), st))
    | .classS name superC methods =>
        (match superC with
         | Option.none =>
             let st1 := envDefine st st.env name.lexeme .nilV
             let ms := buildMethods st1.env methods .nil
             envAssignDyn st1 (st1.envs.length + 1) st1.env name
               (.classV (.mk name.lexeme ms (.some zeroCls)))
         | Option.some sup =>
             (match evalExpr f (.variable sup.1 sup.2) st with
              | (.error er, st1) => (.error er, st1)
              | (.ok v, st1) =>
                  match v with
                  | .classV sc =>
                      let st2 := envDefine st1 st1.env name.lexeme .nilV
                      let p := heapAlloc st2.envs
                        { envMap := [], enclosing := Option.some st2.env }
                      let st3 := { st2 with envs := p.2, env := p.1 }
                      let st4 := envDefine st3 p.1 "super" (.classV sc)
                      let ms := buildMethods p.1 methods .nil
                      let st5 :=
                        match heapGet st4.envs p.1 with
                        | Option.some e =>
                            (match e.enclosing with
                             | Option.some b => { st4 with env := b }
                             | Option.none => st4)
                        | Option.none => st4
                      envAssignDyn st5 (st5.envs.length + 1) st5.env name
                        (.classV (.mk name.lexeme ms (.some sc)))
                  | _ => (.error (.rte name.line "Superclass must be a class."), st1)))

/-- The statement loop of `Interpret`/`executeBlock`. -/
def execStmts : Nat → StmtList → IState → Except RunErr Unit × IState
  | 0, _, st => (.error .fuelOut, st)
  | _+1, .nil, st => (.ok (), st)
  | f+1, .cons s rest, st =>
      match execStmt f s st with
      | (.error er, st1) => (.error er, st1)
      | (.ok _, st1) => execStmts f rest st1

/-- `Interpreter.executeBlock`: swap in `newEnvA`, run the statements, and
restore the previous environment pointer on every exit path (the Go
`defer`). -/
def executeBlock : Nat → StmtList → Nat → IState → Except RunErr Unit × IState
  | 0, _, _, st => (.error .fuelOut, st)
  | f+1, stmts, newEnvA, st =>
      let prev := st.env
      let p := execStmts f stmts { st with env := newEnvA }
      (p.1, { p.2 with env := prev })

/-- The callable dispatch of `VisitCall`: non-callables and arity
mismatches are runtime errors; then `Function.Call`, `Class.Call`, or the
clock built-in (modelled as the constant 0 — no claim depends on it). -/
def callValue : Nat → Value → List Value → Int → IState →
    Except RunErr Value × IState
  | 0, _, _, _, st => (.error .fuelOut, st)
  | f+1, callee, args, line, st =>
      match callee with
      | .funcV fn =>
          if args.length = fn.arity then callFunction f fn args st
          else (.error (.rte line ("Expected " ++ toString fn.arity ++
            " args but got " ++ toString args.length ++ ".")), st)
      | .classV c =>
          if args.length = c.arity then callClass f c args st
          else (.error (.rte line ("Expected " ++ toString c.arity ++
            " args but got " ++ toString args.length ++ ".")), st)
      | .clockV =>
          if args.length = 0 then (.ok (.numV (.finite 0)), st)
          else (.error (.rte line ("Expected 0 args but got " ++
            toString args.length ++ ".")), st)
      | _ => (.error (.rte line "Can only call functions and classes."), st)

/-- `Function.Call`: fresh environment enclosing the *captured* closure,
bind parameters, run the body; the deferred `recover` turns a `returnable`
panic into the returned value (note: for an initializer this recover path
returns the panicked value, *bypassing* the is-initializer branch); normal
completion yields the bound `this` for initializers and nil otherwise. -/
def callFunction : Nat → FuncVal → List Value → IState →
    Except RunErr Value × IState
  | 0, _, _, st => (.error .fuelOut, st)
  | f+1, fn, args, st =>
      let p := heapAlloc st.envs { envMap := [], enclosing := Option.some fn.closure }
      match bindParams { st with envs := p.2 } p.1 fn.decl.params args with
      | (.error er, st2) => (.error er, st2)
      | (.ok _, st2) =>
          match executeBlock f fn.decl.body p.1 st2 with
          | (.error (.ret v), st3) => (.ok v, st3)
          | (.error er, st3) => (.error er, st3)
          | (.ok _, st3) =>
              if fn.isInitializer then
                (match envGetAt st3 fn.closure 0 thisTok with
                 | .ok v => (.ok v, st3)
                 | .error er => (.error er, st3))
              else (.ok .nilV, st3)

/-- `Class.Call`: allocate the instance, invoke a bound `init` if present
(its result discarded), and return the instance. -/
def callClass : Nat → ClassVal → List Value → IState →
    Except RunErr Value × IState
  | 0, _, _, st => (.error .fuelOut, st)
  | f+1, c, args, st =>
      let p := heapAlloc st.insts { cls := c, fields := [] }
      let st1 := { st with insts := p.2 }
      match c.findMethod "init" with
      | Option.none => (.ok (.instV p.1), st1)
      | Option.some initM =>
          let q := bindMethod st1 initM p.1
          match callFunction f q.1 args q.2 with
          | (.error er, st3) => (.error er, st3)
          | (.ok _, st3) => (.ok (.instV p.1), st3)
end

/-! ## The Resolver (part_003) -/

/-- `FunctionType` of the Resolver. -/
inductive FunctionType where
  | NONEFUNC | FUNCTION | INITIALIZER | METHOD
  deriving DecidableEq, Repr

/-- `ClassType` of the Resolver (`NONECLASS`, `SUBCLASSCLASS`,
`CLASSCLASS`). -/
inductive ClassType where
  | noneC | subclassC | classC
  deriving DecidableEq, Repr

/-- One lexical `scope` of the Resolver: maps name → declaration line,
name → definition line, and the set of referenced names. -/
structure RScope where
  declared : List (String × Int)
  defined : List (String × Int)
  referenced : List String
  deriving DecidableEq, Repr

/-- The Resolver's mutable state: the scope stack (innermost scope at the
head; Go keeps it at the end of the slice), the resolution table it writes
through `Interpreter.Resolve`, and the two context enums. -/
structure RState where
  scopes : List RScope
  table : List (Expr × Nat)
  currentFunctionType : FunctionType
  currentClassType : ClassType
  deriving Repr

/-- A `resolutionError` panic, or fuel exhaustion (modelling artifact). -/
inductive ResErr where
  | resErr (line : Int) (msg : String)
  | fuelOut
  deriving DecidableEq, Repr

/-- `Resolver.declare`: a no-op at global scope; a duplicate name in the
current scope is an error. -/
def rdeclare (rs : RState) (name : Token) : Except ResErr RState :=
  match rs.scopes with
  | [] => .ok rs
  | top :: rest =>
      if (assocGet top.declared name.lexeme).isSome then
        .error (.resErr name.line
          ("already a variable with name " ++ qs name.lexeme ++ " in this scope"))
      else
        .ok { rs with scopes :=
          ({ top with declared := assocSet top.declared name.lexeme name.line }) :: rest }

/-- `Resolver.define`: a no-op at global scope. -/
def rdefine (rs : RState) (name : Token) : RState :=
  match rs.scopes with
  | [] => rs
  | top :: rest =>
      { rs with scopes :=
          ({ top with defined := assocSet top.defined name.lexeme name.line }) :: rest }

/-- The direct `peekScope().declare/define` pair used by `VisitClassStmt`
for `this` and `super` (bypasses the duplicate check). -/
def rawDeclareDefine (rs : RState) (lex : String) (line : Int) : RState :=
  match rs.scopes with
  | [] => rs
  | top :: rest =>
      { rs with scopes :=
          ({ top with declared := assocSet top.declared lex line,
                      defined := assocSet top.defined lex line }) :: rest }

/-- `Resolver.beginScope`. -/
def rbeginScope (rs : RState) : RState :=
  { rs with scopes := ⟨[], [], []⟩ :: rs.scopes }

/-- The unused-variable sweep of `Resolver.endScope`: the first declared
name that was never referenced, skipping `this` and `super` (Go iterates
the map in unspecified order; insertion order here — the programs examined
never have two unused names). -/
def findUnused (referenced : List String) : List (String × Int) → Option (String × Int)
  | [] => Option.none
  | (k, line) :: rest =>
      if referenced.contains k || k = "this" || k = "super" then
        findUnused referenced rest
      else Option.some (k, line)

/-- `Resolver.endScope`: error on an unused local, then pop. -/
def rendScope (rs : RState) : Except ResErr RState :=
  match rs.scopes with
  | [] => .error (.resErr 0 "endScope on empty scope stack")
  | top :: rest =>
      match findUnused top.referenced top.declared with
      | Option.some kv =>
          .error (.resErr kv.2 ("unused local variable " ++ qs kv.1))
      | Option.none => .ok { rs with scopes := rest }

/-- The depth walk of `Resolver.resolveLocal`: find the innermost scope
declaring the name, returning its depth and marking it referenced there. -/
def resolveLocalAux (lex : String) : List RScope → Nat → Option (Nat × List RScope)
  | [], _ => Option.none
  | s :: rest, depth =>
      if (assocGet s.declared lex).isSome then
        Option.some (depth, ({ s with referenced := lex :: s.referenced }) :: rest)
      else
        match resolveLocalAux lex rest (depth + 1) with
        | Option.some pr => Option.some (pr.1, s :: pr.2)
        | Option.none => Option.none

/-- `Resolver.resolveLocal`: record `(node, depth)` in the interpreter's
table (`Interpreter.Resolve` is a Go map insert, so a key equal to an
earlier one *overwrites* its depth); an undeclared name records nothing
(global, resolved dynamically). -/
def resolveLocal (rs : RState) (e : Expr) (name : Token) : RState :=
  match resolveLocalAux name.lexeme rs.scopes 0 with
  | Option.some pr =>
      { rs with scopes := pr.2, table := assocSet rs.table e pr.1 }
  | Option.none => rs

/-- The parameter declare/define loop of `Resolver.resolveFunction`. -/
def declareParams : List Token → RState → Except ResErr RState
  | [], rs => .ok rs
  | p :: ps, rs =>
      match rdeclare rs p with
      | .error e => .error e
      | .ok rs1 => declareParams ps (rdefine rs1 p)

mutual
/-- The statement visitors of the Resolver. -/
def resolveStmt : Nat → Stmt → RState → Except ResErr RState
  | 0, _, _ => .error .fuelOut
  | f+1, s, rs =>
    match s with
    | .exprS e => resolveExpr f e rs
    | .printS e => resolveExpr f e rs
    | .funcS name params body =>
        (match rdeclare rs name with
         | .error e => .error e
         | .ok rs1 => resolveFunctionR f params body .FUNCTION (rdefine rs1 name))
    | .ifS cond thenB elseB =>
        (match resolveExpr f cond rs with
         | .error e => .error e
         | .ok rs1 =>
             match resolveStmt f thenB rs1 with
             | .error e => .error e
             | .ok rs2 =>
                 match elseB with
                 | .someS eb => resolveStmt f eb rs2
                 | .noneS => .ok rs2)
    | .whileS cond body =>
        (match resolveExpr f cond rs with
         | .error e => .error e
         | .ok rs1 => resolveStmt f body rs1)
    | .block stmts =>
        (match resolveStmts f stmts (rbeginScope rs) with
         | .error e => .error e
         | .ok rs1 => rendScope rs1)
    | .returnS kw value =>
        (match value with
         | Option.some e =>
             if rs.currentFunctionType = .NONEFUNC then
               .error (.resErr kw.line "can't return a value from top-level code.")
             else if rs.currentFunctionType = .INITIALIZER then
               .error (.resErr kw.line "can't return a value from an initializer")
             else resolveExpr f e rs
         | Option.none => .ok rs)
    | .varS name init =>
        (match rdeclare rs name with
         | .error e => .error e
         | .ok rs1 =>
             match init with
             | Option.some e =>
                 (match resolveExpr f e rs1 with
                  | .error e2 => .error e2
                  | .ok rs2 => .ok (rdefine rs2 name))
             | Option.none => .ok (rdefine rs1 name))
    | .classS name superC methods =>
        let enclosingClassType := rs.currentClassType
        let rs0 := { rs with currentClassType := ClassType.classC }
        (match rdeclare rs0 name with
         | .error e => .error e
         | .ok rs1 =>
             let rs2 := rdefine rs1 name
             let withSuper :
                 Except ResErr RState :=
               match superC with
               | Option.some sup =>
                   if name.lexeme = sup.1.lexeme then
                     .error (.resErr name.line "A class can't inherit from itself.")
                   else
                     (match resolveExpr f (.variable sup.1 sup.2)
                        { rs2 with currentClassType := ClassType.subclassC } with
                      | .error e => .error e
                      | .ok rs3 =>
                          .ok (rawDeclareDefine (rbeginScope rs3) "super" name.line))
               | Option.none => .ok rs2
             match withSuper with
             | .error e => .error e
             | .ok rs4 =>
                 let rs5 := rawDeclareDefine (rbeginScope rs4) "this" name.line
                 match resolveMethods f methods rs5 with
                 | .error e => .error e
                 | .ok rs6 =>
                     match rendScope rs6 with
                     | .error e => .error e
                     | .ok rs7 =>
                         match superC with
                         | Option.some _ =>
                             (match rendScope rs7 with
                              | .error e => .error e
                              | .ok rs8 =>
                                  .ok { rs8 with currentClassType := enclosingClassType })
                         | Option.none =>
                             .ok { rs7 with currentClassType := enclosingClassType })

/-- The statement loop of `Resolver.resolveStmts`. -/
def resolveStmts : Nat → StmtList → RState → Except ResErr RState
  | 0, _, _ => .error .fuelOut
  | _+1, .nil, rs => .ok rs
  | f+1, .cons s rest, rs =>
      match resolveStmt f s rs with
      | .error e => .error e
      | .ok rs1 => resolveStmts f rest rs1

/-- The expression visitors of the Resolver. -/
def resolveExpr : Nat → Expr → RState → Except ResErr RState
  | 0, _, _ => .error .fuelOut
  | f+1, e, rs =>
    match e with
    | .literal _ => .ok rs
    | .grouping inner => resolveExpr f inner rs
    | .unary _ r => resolveExpr f r rs
    | .binary l _ r =>
        (match resolveExpr f l rs with
         | .error er => .error er
         | .ok rs1 => resolveExpr f r rs1)
    | .logical l _ r =>
        (match resolveExpr f l rs with
         | .error er => .error er
         | .ok rs1 => resolveExpr f r rs1)
    | .call callee _ args =>
        (match resolveExpr f callee rs with
         | .error er => .error er
         | .ok rs1 => resolveExprs f args rs1)
    | .get obj _ => resolveExpr f obj rs
    | .set obj _ value =>
        (match resolveExpr f value rs with
         | .error er => .error er
         | .ok rs1 => resolveExpr f obj rs1)
    | .assign name value =>
        (match resolveExpr f value rs with
         | .error er => .error er
         | .ok rs1 => .ok (resolveLocal rs1 (Expr.assign name value) name))
    | .superE kw m =>
        if rs.currentClassType = .noneC then
          .error (.resErr kw.line "Can't use 'super' outside of a class.")
        else if rs.currentClassType ≠ .subclassC then
          .error (.resErr kw.line "Can't use 'super' in a class with no superclass.")
        else .ok (resolveLocal rs (Expr.superE kw m) kw)
    | .thisE kw =>
        if rs.currentClassType = .noneC then
          .error (.resErr kw.line "Cannot use 'this' outside of a class method.")
        else .ok (resolveLocal rs (Expr.thisE kw) kw)
    | .variable n u =>
        (match rs.scopes with
         | top :: _ =>
             if (assocGet top.declared n.lexeme).isSome &&
                !(assocGet top.defined n.lexeme).isSome then
               .error (.resErr n.line "Can't read local variable in its own initializer")
             else .ok (resolveLocal rs (Expr.variable n u) n)
         | [] => .ok (resolveLocal rs (Expr.variable n u) n))

/-- The argument loop of the Resolver's `VisitCall`. -/
def resolveExprs : Nat → ExprList → RState → Except ResErr RState
  | 0, _, _ => .error .fuelOut
  | _+1, .nil, rs => .ok rs
  | f+1, .cons e rest, rs =>
      match resolveExpr f e rs with
      | .error er => .error er
      | .ok rs1 => resolveExprs f rest rs1

/-- `Resolver.resolveFunction`: push a scope, declare+define the
parameters, resolve the body under the given function type, pop, restore
the enclosing function type. -/
def resolveFunctionR : Nat → List Token → StmtList → FunctionType → RState →
    Except ResErr RState
  | 0, _, _, _, _ => .error .fuelOut
  | f+1, params, body, typ, rs =>
      let enclosing := rs.currentFunctionType
      match declareParams params
        (rbeginScope { rs with currentFunctionType := typ }) with
      | .error e => .error e
      | .ok rs1 =>
          match resolveStmts f body rs1 with
          | .error e => .error e
          | .ok rs2 =>
              match rendScope rs2 with
              | .error e => .error e
              | .ok rs3 => .ok { rs3 with currentFunctionType := enclosing }

/-- The method loop of the Resolver's `VisitClassStmt`: `init` resolves as
an INITIALIZER, other methods as METHOD. -/
def resolveMethods : Nat → Methods → RState → Except ResErr RState
  | 0, _, _ => .error .fuelOut
  | _+1, .nil, rs => .ok rs
  | f+1, .cons name params body rest, rs =>
      let typ : FunctionType :=
        if name.lexeme = "init" then .INITIALIZER else .METHOD
      match resolveFunctionR f params body typ rs with
      | .error e => .error e
      | .ok rs1 => resolveMethods f rest rs1
end

/-- `Resolver.Resolve` run on a program from the empty (global) state:
either the populated resolution table or a resolution error. -/
def resolveProgram (fuel : Nat) (stmts : StmtList) :
    Except ResErr (List (Expr × Nat)) :=
  match resolveStmts fuel stmts ⟨[], [], .NONEFUNC, .noneC⟩ with
  | .ok rs => .ok rs.table
  | .error e => .error e

/-! ## The driver (`Lox.run` / `Interpreter.Interpret`) -/

/-- What the driver observes from one `Interpret` run.  `crashed` models
an unrecovered Go panic: `Interpret`'s deferred function asserts
`r.(runtimeError)`, so a `returnable` (or any untyped panic) reaching it
re-panics and kills the process. -/
inductive Outcome where
  | normal
  | reported (msg : String)
  | crashed
  | resolveFailed (msg : String)
  | outOfFuel
  deriving DecidableEq, Repr

/-- `Interpreter.init`: the global environment holding `clock`. -/
def initState (table : List (Expr × Nat)) : IState :=
  { envs := [{ envMap := [("clock", Value.clockV)], enclosing := Option.none }],
    insts := [], env := 0, globals := 0, table := table, output := [] }

/-- `Interpreter.Interpret`: run the statements; the deferred `recover`
formats a `runtimeError` panic as an error return, and crashes (failed
type assertion) on any other panic — including a `returnable` from a
top-level bare `return;`. -/
def interpret (fuel : Nat) (stmts : StmtList) (st : IState) : Outcome × IState :=
  match execStmts fuel stmts st with
  | (.ok _, st1) => (.normal, st1)
  | (.error (.rte line msg), st1) =>
      (.reported ("runtime error on line " ++ toString line ++ ": " ++ msg), st1)
  | (.error (.ret _), st1) => (.crashed, st1)
  | (.error (.goPanic _), st1) => (.crashed, st1)
  | (.error .fuelOut, st1) => (.outOfFuel, st1)

/-- The resolve-then-interpret pipeline of `Lox.run` on already-parsed
statements, observing the outcome and printed lines. -/
def runProgram (fuel : Nat) (stmts : StmtList) : Outcome × List String :=
  match resolveProgram fuel stmts with
  | .error (.resErr line msg) =>
      (.resolveFailed ("resolution error on line " ++ toString line ++ ": " ++ msg), [])
  | .error .fuelOut => (.outOfFuel, [])
  | .ok table =>
      let p := interpret fuel stmts (initState table)
      (p.1, p.2.output)

/-! ## The Scanner (scanner.go)

The Go scanner reports its two lexical errors by `panic`king with a plain
string (`Lox.run` never recovers these, so they kill the process); the
model returns them as `ScanErr.panicked` values carrying the exact
message. ASCII classification stands in for `unicode.IsDigit/IsLetter`
(all inputs examined are ASCII). -/

/-- A scanner panic, or fuel exhaustion (modelling artifact). -/
inductive ScanErr where
  | panicked (msg : String)
  | fuelOut
  deriving DecidableEq, Repr

/-- `Scanner`'s mutable fields: the rune slice, `start`, `current`,
`line`, and the tokens emitted so far. -/
structure ScanState where
  src : List Char
  start : Nat
  current : Nat
  line : Int
  tokens : List Token
  deriving DecidableEq, Repr

/-- `unicode.IsDigit`, restricted to ASCII. -/
def isDigitC (c : Char) : Bool := '0' ≤ c && c ≤ '9'

/-- `unicode.IsLetter`, restricted to ASCII. -/
def isLetterC (c : Char) : Bool := ('a' ≤ c && c ≤ 'z') || ('A' ≤ c && c ≤ 'Z')

/-- `Scanner.isAtEnd`. -/
def ScanState.atEnd (st : ScanState) : Bool := st.current ≥ st.src.length

/-- `Scanner.peek` (0 rune at end of input). -/
def ScanState.peekC (st : ScanState) : Char :=
  (st.src.get? st.current).getD (Char.ofNat 0)

/-- `Scanner.peekNext`. -/
def ScanState.peekNextC (st : ScanState) : Char :=
  (st.src.get? (st.current + 1)).getD (Char.ofNat 0)

/-- `Scanner.advance`: read the current rune and move past it. -/
def ScanState.advanceC (st : ScanState) : Char × ScanState :=
  ((st.src.get? st.current).getD (Char.ofNat 0), { st with current := st.current + 1 })

/-- `Scanner.matchNext`. -/
def ScanState.matchNext (st : ScanState) (expected : Char) : Bool × ScanState :=
  if st.atEnd then (false, st)
  else if (st.src.get? st.current).getD (Char.ofNat 0) ≠ expected then (false, st)
  else (true, { st with current := st.current + 1 })

/-- The rune sub-slice `s.srcRunes[a:b]` as a string. -/
def sliceStr (cs : List Char) (a b : Nat) : String :=
  String.mk ((cs.drop a).take (b - a))

/-- `Scanner.addToken`: lexeme is the `start..current` slice, line is the
line at the *end* of the token. -/
def ScanState.addToken (st : ScanState) (typ : TokenType) (lit : Option TokLit) :
    ScanState :=
  { st with tokens := st.tokens ++
      [⟨typ, sliceStr st.src st.start st.current, lit, st.line⟩] }

/-- The digit-run accumulator of `strconv.ParseFloat` on the scanner's
digit/dot lexemes. -/
def digitsToNat (acc : Nat) : List Char → Nat
  | [] => acc
  | c :: rest => digitsToNat (acc * 10 + (c.toNat - 48)) rest

/-- `strconv.ParseFloat` on a scanned number lexeme (digits, optionally a
dot and digits): exact rational value.  The Go error branch fires only on
overflow of a several-hundred-digit literal and is not modelled. -/
def parseLoxNumber (cs : List Char) : GoFloat :=
  let intPart := cs.takeWhile (fun c => c ≠ '.')
  let fracPart := (cs.dropWhile (fun c => c ≠ '.')).drop 1
  .finite ((digitsToNat 0 intPart : ℚ) +
    (digitsToNat 0 fracPart : ℚ) / ((10 : ℚ) ^ fracPart.length))

/-- The reserved-word table `identifierToTokenType`. -/
def keywordType (s : String) : Option TokenType :=
  match s with
  | "and" => Option.some .AND
  | "class" => Option.some .CLASS
  | "else" => Option.some .ELSE
  | "false" => Option.some .FALSE
  | "fun" => Option.some .FUN
  | "for" => Option.some .FOR
  | "if" => Option.some .IF
  | "nil" => Option.some .NIL
  | "or" => Option.some .OR
  | "print" => Option.some .PRINT
  | "return" => Option.some .RETURN
  | "super" => Option.some .SUPER
  | "this" => Option.some .THIS
  | "true" => Option.some .TRUE
  | "var" => Option.some .VAR
  | "while" => Option.some .WHILE
  | _ => Option.none

/-- The consume loop of `Scanner.scanString`: advance to the closing
quote, bumping `line` at embedded newlines. -/
def scanStringLoop : Nat → ScanState → Except ScanErr ScanState
  | 0, _ => .error .fuelOut
  | f+1, st =>
      if st.peekC ≠ '"' && !st.atEnd then
        let st1 := if st.peekC = '\n' then { st with line := st.line + 1 } else st
        scanStringLoop f (st1.advanceC).2
      else if st.atEnd then
        .error (.panicked ("Unterminated string starting on line " ++ toString st.line))
      else
        let st1 := (st.advanceC).2
        .ok (st1.addToken .STRING
          (Option.some (.str (sliceStr st1.src (st1.start + 1) (st1.current - 1)))))

/-- The integer-part digit loop of `Scanner.scanNumber`. -/
def scanDigits : Nat → ScanState → ScanState
  | 0, st => st
  | f+1, st =>
      if isDigitC st.peekC then scanDigits f (st.advanceC).2 else st

/-- `Scanner.scanNumber`. -/
def scanNumber (f : Nat) (st : ScanState) : ScanState :=
  let st1 := scanDigits f st
  let st2 :=
    if st1.peekC = '.' && isDigitC st1.peekNextC then
      scanDigits f (st1.advanceC).2
    else st1
  st2.addToken .NUMBER
    (Option.some (.num (parseLoxNumber ((st2.src.drop st2.start).take (st2.current - st2.start)))))

/-- The letter/digit loop of `Scanner.scanIdentifier`. -/
def scanIdentChars : Nat → ScanState → ScanState
  | 0, st => st
  | f+1, st =>
      if isLetterC st.peekC || isDigitC st.peekC then
        scanIdentChars f (st.advanceC).2
      else st

/-- `Scanner.scanIdentifier`: keyword kind if reserved, else IDENTIFIER. -/
def scanIdent (f : Nat) (st : ScanState) : ScanState :=
  let st1 := scanIdentChars f st
  let lexeme := sliceStr st1.src st1.start st1.current
  st1.addToken ((keywordType lexeme).getD .IDENTIFIER) Option.none

/-- The comment consume loop of the `/` case. -/
def scanCommentLoop : Nat → ScanState → ScanState
  | 0, st => st
  | f+1, st =>
      if st.peekC ≠ '\n' && !st.atEnd then scanCommentLoop f (st.advanceC).2 else st

/-- `Scanner.scanToken`: one dispatch step.  The unexpected-character
panic message carries the offending rune but *no line number*. -/
def scanToken (f : Nat) (st0 : ScanState) : Except ScanErr ScanState :=
  let p := st0.advanceC
  let r := p.1
  let st := p.2
  if r = '(' then .ok (st.addToken .LEFT_PAREN Option.none)
  else if r = ')' then .ok (st.addToken .RIGHT_PAREN Option.none)
  else if r = '{' then .ok (st.addToken .LEFT_BRACE Option.none)
  else if r = '}' then .ok (st.addToken .RIGHT_BRACE Option.none)
  else if r = ',' then .ok (st.addToken .COMMA Option.none)
  else if r = '.' then .ok (st.addToken .DOT Option.none)
  else if r = '-' then .ok (st.addToken .MINUS Option.none)
  else if r = '+' then .ok (st.addToken .PLUS Option.none)
  else if r = ';' then .ok (st.addToken .SEMICOLON Option.none)
  else if r = '*' then .ok (st.addToken .STAR Option.none)
  else if r = '!' then
    let q := st.matchNext '='
    .ok (if q.1 then q.2.addToken .BANG_EQUAL Option.none
         else q.2.addToken .BANG Option.none)
  else if r = '=' then
    let q := st.matchNext '='
    .ok (if q.1 then q.2.addToken .EQUAL_EQUAL Option.none
         else q.2.addToken .EQUAL Option.none)
  else if r = '<' then
    let q := st.matchNext '='
    .ok (if q.1 then q.2.addToken .LESS_EQUAL Option.none
         else q.2.addToken .LESS Option.none)
  else if r = '>' then
    let q := st.matchNext '='
    .ok (if q.1 then q.2.addToken .GREATER_EQUAL Option.none
         else q.2.addToken .GREATER Option.none)
  else if r = '/' then
    let q := st.matchNext '/'
    .ok (if q.1 then scanCommentLoop f q.2 else q.2.addToken .SLASH Option.none)
  else if r = ' ' || r = '\r' || r = '\t' then .ok st
  else if r = '\n' then .ok { st with line := st.line + 1 }
  else if r = '"' then scanStringLoop f st
  else if isDigitC r then .ok (scanNumber f st)
  else if isLetterC r then .ok (scanIdent f st)
  else .error (.panicked ("unexpected character '" ++ r.toString ++ "'"))

/-- The main loop of `Scanner.ScanTokens`. -/
def scanLoop : Nat → ScanState → Except ScanErr (List Token)
  | 0, _ => .error .fuelOut
  | f+1, st =>
      if st.atEnd then .ok st.tokens
      else
        match scanToken f { st with start := st.current } with
        | .error e => .error e
        | .ok st1 => scanLoop f st1

/-- `Scanner.ScanTokens` (no EOF token is emitted). -/
def scanTokens (fuel : Nat) (src : String) : Except ScanErr (List Token) :=
  scanLoop fuel { src := src.data, start := 0, current := 0, line := 1, tokens := [] }

/-! ## Concrete programs used by the claims -/

/-- An IDENTIFIER token. -/
def idTok (s : String) (line : Int) : Token := ⟨.IDENTIFIER, s, Option.none, line⟩

/-- The `)` token closing a call, line 1. -/
def parenTok : Token := ⟨.RIGHT_PAREN, ")", Option.none, 1⟩

/-- The `this` keyword token on line 1.  Both `this` references of
`progThisCollision` parse to `Expr.thisE` of this same token, hence to
*equal* `Expr` values — the collision under scrutiny. -/
def thisKw : Token := ⟨.THIS, "this", Option.none, 1⟩

/-- The (unique) `This` node of `progThisCollision`. -/
def thisRef : Expr := .thisE thisKw

/-- The program `class C { m() { print this; { print this; } } } C().m();`
written on a single source line: the first `this` sits at scope depth 1
(method body → `this` scope), the second at depth 2 (inner block → method
body → `this` scope), but both occurrences are the same `Expr` value. -/
def progThisCollision : StmtList := stmtsOf
  [ .classS (idTok "C" 1) Option.none
      (.cons (idTok "m" 1) []
        (stmtsOf [ .printS thisRef, .block (stmtsOf [.printS thisRef]) ])
        .nil),
    .exprS (.call
      (.get (.call (.variable (idTok "C" 1) 0) parenTok .nil) (idTok "m" 1))
      parenTok .nil) ]

/-- The `return` keyword token on line 1. -/
def retTok : Token := ⟨.RETURN, "return", Option.none, 1⟩

/-- The program
`class C { init() { return; } } var o = C(); var r = o.init(); print r;`:
an explicit re-call of the initializer whose body executes a bare
`return;`. -/
def progInitBareReturn : StmtList := stmtsOf
  [ .classS (idTok "C" 1) Option.none
      (.cons (idTok "init" 1) [] (stmtsOf [.returnS retTok Option.none]) .nil),
    .varS (idTok "o" 1)
      (Option.some (.call (.variable (idTok "C" 1) 0) parenTok .nil)),
    .varS (idTok "r" 1)
      (Option.some (.call
        (.get (.variable (idTok "o" 1) 1) (idTok "init" 1)) parenTok .nil)),
    .printS (.variable (idTok "r" 1) 2) ]

/-- The program `return;` — a bare return in top-level code. -/
def progTopLevelReturn : StmtList := stmtsOf [.returnS retTok Option.none]

/-- A number literal expression. -/
def numLit (n : ℚ) : Expr := .literal (.num (.finite n))

/-- The expression `(0/0) == (0/0)`. -/
def nanEqNan : Expr :=
  .binary
    (.binary (numLit 0) ⟨.SLASH, "/", Option.none, 1⟩ (numLit 0))
    ⟨.EQUAL_EQUAL, "==", Option.none, 1⟩
    (.binary (numLit 0) ⟨.SLASH, "/", Option.none, 1⟩ (numLit 0))

/-- Count the `This` expression nodes occurring in a program (each textual
`this` in the source contributes one). -/
def countThisE : Nat → StmtList → Nat
  | 0, _ => 0
  | f+1, sl => countThisSL f sl
where
  countThisSL : Nat → StmtList → Nat
    | 0, _ => 0
    | _+1, .nil => 0
    | f+1, .cons s rest => countThisS f s + countThisSL f rest
  countThisS : Nat → Stmt → Nat
    | 0, _ => 0
    | f+1, s =>
      match s with
      | .exprS e => countThisX f e
      | .printS e => countThisX f e
      | .varS _ init => (init.map (countThisX f)).getD 0
      | .funcS _ _ body => countThisSL f body
      | .block sl => countThisSL f sl
      | .ifS c t e =>
          countThisX f c + countThisS f t +
            (match e with | .someS s2 => countThisS f s2 | .noneS => 0)
      | .whileS c b => countThisX f c + countThisS f b
      | .returnS _ v => (v.map (countThisX f)).getD 0
      | .classS _ _ ms => countThisM f ms
  countThisM : Nat → Methods → Nat
    | 0, _ => 0
    | _+1, .nil => 0
    | f+1, .cons _ _ body rest => countThisSL f body + countThisM f rest
  countThisX : Nat → Expr → Nat
    | 0, _ => 0
    | f+1, e =>
      match e with
      | .thisE _ => 1
      | .assign _ v => countThisX f v
      | .binary l _ r => countThisX f l + countThisX f r
      | .logical l _ r => countThisX f l + countThisX f r
      | .call c _ args => countThisX f c + countThisXL f args
      | .get o _ => countThisX f o
      | .set o _ v => countThisX f o + countThisX f v
      | .grouping g => countThisX f g
      | .unary _ r => countThisX f r
      | _ => 0
  countThisXL : Nat → ExprList → Nat
    | 0, _ => 0
    | _+1, .nil => 0
    | f+1, .cons e rest => countThisX f e + countThisXL f rest

/-- The program `fun g(){ return; } fun f(){ g(); print "after"; } f();`:
a bare return inside a function unwinds to its own call site only. -/
def progFnReturn : StmtList := stmtsOf
  [ .funcS (idTok "g" 1) [] (stmtsOf [.returnS retTok Option.none]),
    .funcS (idTok "f" 1) [] (stmtsOf
      [ .exprS (.call (.variable (idTok "g" 1) 0) parenTok .nil),
        .printS (.literal (.str "after")) ]),
    .exprS (.call (.variable (idTok "f" 1) 1) parenTok .nil) ]

/-- The constructor tag of a runtime value (two values of different
dynamic Go types have different tags). -/
def vtag : Value → Nat
  | .nilV => 0
  | .boolV _ => 1
  | .numV _ => 2
  | .strV _ => 3
  | .funcV _ => 4
  | .classV _ => 5
  | .clockV => 6
  | .instV _ => 7

/-- Whether an operator-dispatch result is a raised error. -/
def isErr {α : Type} : Except RunErr α → Bool
  | .error _ => true
  | .ok _ => false

/-- Whether a value is a number. -/
def isNumB : Value → Bool
  | .numV _ => true
  | _ => false

/-- Whether a value is a string. -/
def isStrB : Value → Bool
  | .strV _ => true
  | _ => false

/-- List-prefix test used by the substring check. -/
def startsWithL : List Char → List Char → Bool
  | [], _ => true
  | _ :: _, [] => false
  | a :: as, b :: bs => decide (a = b) && startsWithL as bs

/-- Does `needle` occur as a contiguous segment of `hay`? -/
def segmentAt (needle : List Char) : List Char → Bool
  | [] => startsWithL needle []
  | c :: rest => startsWithL needle (c :: rest) || segmentAt needle rest

/-- Substring containment on strings. -/
def strHas (hay needle : String) : Bool := segmentAt needle.data hay.data

/-- Decidable equality for `Except` results (absent from core). -/
instance {ε α : Type} [DecidableEq ε] [DecidableEq α] : DecidableEq (Except ε α) :=
  fun x y =>
    match x, y with
    | .ok v, .ok w =>
        if h : v = w then .isTrue (h ▸ rfl)
        else .isFalse (fun hc => h (Except.ok.inj hc))
    | .error v, .error w =>
        if h : v = w then .isTrue (h ▸ rfl)
        else .isFalse (fun hc => h (Except.error.inj hc))
    | .ok _, .error _ => .isFalse (fun hc => Except.noConfusion hc)
    | .error _, .ok _ => .isFalse (fun hc => Except.noConfusion hc)

/-- When resolution succeeds with table `tbl`, the pipeline's result is the
interpreter run against `tbl` (splits the two stages for the concrete-run
proofs below). -/
theorem runProgram_ok (fuel : Nat) (stmts : StmtList) (tbl : List (Expr × Nat))
    (h : resolveProgram fuel stmts = .ok tbl) :
    runProgram fuel stmts =
      ((interpret fuel stmts (initState tbl)).1,
       (interpret fuel stmts (initState tbl)).2.output) := by
  unfold runProgram
  rw [h]

/-! ## Claims -/

set_option maxHeartbeats 1000000 in
/-- C1.  The spec's depth invariant — for every `Variable`/`This`/`Super`
node recorded with depth `d`, evaluation finds the binding exactly `d`
environments up — fails on the code: in
`class C { m() { print this; { print this; } } } C().m();` (one source
line) the two `this` occurrences are equal `Expr` map keys, so the
resolver records depth 1 for the first and then overwrites it with the
inner occurrence's depth 2; evaluating the *first* `print this` therefore
walks 2 environments up to an environment with no `this` binding, and the
whole (statically valid) program dies with a spurious
`Undefined (local) variable "this"` runtime error. -/
theorem c1_depth_invariant_violated :
    resolveProgram 40 progThisCollision = .ok [(thisRef, 2)] ∧
    runProgram 40 progThisCollision =
      (.reported "runtime error on line 1: Undefined (local) variable \"this\"", []) := by
  refine ⟨by decide, ?_⟩
  rw [runProgram_ok 40 _ [(thisRef, 2)] (by decide)]
  exact Prod.ext (by decide) (by decide)

set_option maxHeartbeats 1000000 in
/-- C2.  An explicit initializer invocation whose body executes a bare
`return;` yields nil, not the bound instance: in
`class C { init() { return; } } var o = C(); var r = o.init(); print r;`
the `returnable` panic is recovered by `Function.Call`'s deferred
function, which sets the return value to the panicked nil and *bypasses*
the `if f.isInitializer` branch; the program prints `<nil>` where the
claim requires the instance (`C instance`). -/
theorem c2_initializer_bare_return_yields_nil :
    runProgram 40 progInitBareReturn = (.normal, ["<nil>"]) := by
  rw [runProgram_ok 40 _ [] (by decide)]
  exact Prod.ext (by decide) (by decide)

set_option maxHeartbeats 1000000 in
/-- C3.  A bare `return;` in top-level code is accepted by the Resolver,
but the interpreter does not handle the unwind: `VisitReturnStmt` panics
with a `returnable`, and `Interpret`'s deferred recover asserts
`r.(runtimeError)`, which fails on a `returnable` and re-panics — the
driver crashes instead of handling the unwind.  (Inside a function the
unwind does stop at the innermost call site, as `progFnReturn` shows.) -/
theorem c3_top_level_bare_return_crashes :
    resolveProgram 40 progTopLevelReturn = .ok [] ∧
    runProgram 40 progTopLevelReturn = (.crashed, []) ∧
    runProgram 40 progFnReturn = (.normal, ["after"]) := by
  refine ⟨by decide, ?_, ?_⟩
  · rw [runProgram_ok 40 _ [] (by decide)]
    exact Prod.ext (by decide) (by decide)
  · rw [runProgram_ok 40 _ [] (by decide)]
    exact Prod.ext (by decide) (by decide)

set_option maxHeartbeats 1000000 in
/-- C4.  Distinct source occurrences of a reference are *not* always keyed
under distinct node identities: `progThisCollision` contains two `This`
occurrences (at different AST positions, hence different source
occurrences), yet the resolver's finished table holds a single entry —
both occurrences collided on one key, whose depth is the second
occurrence's 2.  (`Variable` nodes carry a uid to prevent exactly this;
`This`, `Super` and `Assign` nodes do not.) -/
theorem c4_occurrences_collide_on_one_key :
    countThisE 100 progThisCollision = 2 ∧
    resolveProgram 40 progThisCollision = .ok [(thisRef, 2)] := by
  exact ⟨by decide, by decide⟩

/-- C9.  The unexpected-character panic message contains no line number at
all: scanning `@` at line 1 and `@` at line 3 (after two newlines)
produces the *identical* message, so the error is not pinned to the
current line, refuting the claim for unexpected characters. -/
theorem c9_unexpected_char_error_carries_no_line :
    scanTokens 50 "@" = .error (.panicked "unexpected character '@'") ∧
    scanTokens 50 "\n\n@" = .error (.panicked "unexpected character '@'") := by
  exact ⟨by decide, by decide⟩

/-- `decide` respects symmetry of equality. -/
theorem decide_comm {α : Type} [DecidableEq α] (a b : α) :
    decide (a = b) = decide (b = a) := by
  simp only [decide_eq_decide]
  exact ⟨Eq.symm, Eq.symm⟩

/-- Go `==` on floats is symmetric. -/
theorem GoFloat.ieeeEq_symm (a b : GoFloat) : a.ieeeEq b = b.ieeeEq a := by
  cases a <;> cases b <;> first | rfl | exact decide_comm _ _

/-- Field-map deep equality is symmetric (it checks both inclusions). -/
theorem deepEqualFields_symm (f : Nat) (heap : List InstVal)
    (a b : List (String × Value)) :
    deepEqualFields f heap a b = deepEqualFields f heap b a := by
  cases f with
  | zero => rfl
  | succ f =>
      simp only [deepEqualFields]
      rw [decide_comm a.length b.length]
      generalize decide (b.length = a.length) = d
      generalize fieldsIncluded f heap a b = x
      generalize fieldsIncluded f heap b a = y
      cases d <;> cases x <;> cases y <;> rfl

/-- Value deep equality (the model of `reflect.DeepEqual`) is symmetric. -/
theorem deepEqualV_symm (f : Nat) (heap : List InstVal) (v w : Value) :
    deepEqualV f heap v w = deepEqualV f heap w v := by
  cases f with
  | zero =>
      cases v <;> cases w <;>
        first | rfl | exact decide_comm _ _ | exact GoFloat.ieeeEq_symm _ _
  | succ f =>
      cases v <;> cases w <;>
        first
        | rfl
        | exact decide_comm _ _
        | exact GoFloat.ieeeEq_symm _ _
        | · rename_i a b
            show (decide (a = b) || _) = (decide (b = a) || _)
            rw [decide_comm a b]
            cases hga : heapGet heap a <;> cases hgb : heapGet heap b <;>
                simp only [hga, hgb] <;>
              first
              | rfl
              | · rename_i ia ib
                  rw [decide_comm ia.cls ib.cls, deepEqualFields_symm]

/-- Two values of different dynamic types are never deeply equal. -/
theorem deepEqualV_cross (f : Nat) (heap : List InstVal) (v w : Value)
    (h : vtag v ≠ vtag w) : deepEqualV f heap v w = false := by
  cases f <;> cases v <;> cases w <;> first | rfl | exact absurd rfl h

/-- Deep equality is reflexive on every value except a NaN number. -/
theorem deepEqualV_refl (f : Nat) (heap : List InstVal) (v : Value)
    (h : v ≠ .numV .nan) : deepEqualV f heap v v = true := by
  cases f with
  | zero =>
      cases v <;> try simp [deepEqualV]
      rename_i x
      cases x <;> simp [GoFloat.ieeeEq]
      exact absurd rfl h
  | succ f =>
      cases v <;> try simp [deepEqualV]
      rename_i x
      cases x <;> simp [GoFloat.ieeeEq]
      exact absurd rfl h

/-- C5 (counterexample to reflexivity as claimed).  Division `0/0`
produces NaN, and `(0/0) == (0/0)` evaluates to `false`: there is a
runtime value `v` with `v == v` false. -/
theorem c5_nan_reflexivity_counterexample :
    (evalExpr 20 nanEqNan (initState [])).1 = .ok (.boolV false) := by decide

/-- C5 (amended).  The `==`/`!=` dispatch of `VisitBinary` never raises on
any pair of operand values (it always yields a boolean, the two operators
being each other's negation); cross-type comparisons are always false;
equality is symmetric for all values; and it is reflexive for every value
*except* a NaN number (`v == v` is false for NaN, see the
counterexample). -/
theorem c5_equality_amended :
    (∀ (f : Nat) (heap : List InstVal) (lex : String) (lit : Option TokLit)
        (line : Int) (l r : Value),
        binaryOp f heap ⟨.EQUAL_EQUAL, lex, lit, line⟩ l r =
          .ok (.boolV (deepEqualV f heap l r)) ∧
        binaryOp f heap ⟨.BANG_EQUAL, lex, lit, line⟩ l r =
          .ok (.boolV (!deepEqualV f heap l r))) ∧
    (∀ (f : Nat) (heap : List InstVal) (v w : Value),
        vtag v ≠ vtag w → deepEqualV f heap v w = false) ∧
    (∀ (f : Nat) (heap : List InstVal) (v w : Value),
        deepEqualV f heap v w = deepEqualV f heap w v) ∧
    (∀ (f : Nat) (heap : List InstVal) (v : Value),
        v ≠ .numV .nan → deepEqualV f heap v v = true) :=
  ⟨fun _ _ _ _ _ _ _ => ⟨rfl, rfl⟩,
   deepEqualV_cross, deepEqualV_symm, deepEqualV_refl⟩

/-- C5 witness: the amended theorem applied at concrete values. -/
theorem c5_equality_amended_witness :
    deepEqualV 3 [] (.numV (.finite 1)) (.strV "one") = false ∧
    deepEqualV 3 [] (.strV "one") (.strV "one") = true :=
  ⟨c5_equality_amended.2.1 3 [] _ _ (by decide),
   c5_equality_amended.2.2.2 3 [] _ (by decide)⟩

/-- `environment.define` never moves the current-environment pointer. -/
theorem envDefine_env (st : IState) (a : Nat) (n : String) (v : Value) :
    (envDefine st a n v).env = st.env := by
  unfold envDefine
  cases heapGet st.envs a <;> rfl

/-- Parameter binding never moves the current-environment pointer. -/
theorem bindParams_env : ∀ (vs : List Value) (ps : List Token) (st : IState) (a : Nat),
    (bindParams st a ps vs).2.env = st.env := by
  intro vs
  induction vs with
  | nil => intro ps st a; cases ps <;> rfl
  | cons v vs ih =>
      intro ps st a
      cases ps with
      | nil => rfl
      | cons p ps =>
          show (bindParams (envDefine st a p.lexeme v) a ps vs).2.env = st.env
          rw [ih ps (envDefine st a p.lexeme v) a, envDefine_env]

/-- `executeBlock` restores the previous environment pointer on every
outcome (normal, return unwind, runtime error, fuel exhaustion). -/
theorem executeBlock_env (fuel : Nat) (stmts : StmtList) (newEnvA : Nat)
    (st : IState) : ((executeBlock fuel stmts newEnvA st).2).env = st.env := by
  cases fuel <;> rfl

/-- Dynamic assignment never moves the current-environment pointer. -/
theorem envAssignDyn_env : ∀ (f : Nat) (st : IState) (a : Nat) (tok : Token)
    (v : Value), ((envAssignDyn st f a tok v).2).env = st.env := by
  intro f
  induction f with
  | zero => intro st a tok v; rfl
  | succ f ih =>
      intro st a tok v
      show ((envAssignDyn st (f+1) a tok v).2).env = st.env
      unfold envAssignDyn
      split
      · rfl
      · split
        · rfl
        · split
          · exact ih st _ tok v
          · rfl

/-- Evaluating a bare `Variable` expression leaves the interpreter state
untouched (the lookup only reads). -/
theorem evalExpr_variable_state (f : Nat) (n : Token) (u : Int) (st : IState) :
    (evalExpr f (.variable n u) st).2 = st := by
  cases f <;> rfl

/-- Reading a freshly allocated heap cell. -/
theorem heapGet_alloc {α : Type} (h : List α) (x : α) :
    heapGet (h ++ [x]) h.length = Option.some x := by
  induction h with
  | nil => rfl
  | cons b t ih => exact ih

/-- Overwriting a readable heap cell makes the new value readable. -/
theorem heapGet_set {α : Type} : ∀ (h : List α) (a : Nat) (x y : α),
    heapGet h a = Option.some y → heapGet (heapSet h a x) a = Option.some x := by
  intro h
  induction h with
  | nil => intro a x y hy; cases a <;> cases hy
  | cons b t ih =>
      intro a x y hy
      cases a with
      | zero => rfl
      | succ a => exact ih a x y hy

/-- `Function.Call` restores the environment pointer on every exit path. -/
theorem callFunction_env (fuel : Nat) (fn : FuncVal) (args : List Value)
    (st : IState) : ((callFunction fuel fn args st).2).env = st.env := by
  cases fuel with
  | zero => rfl
  | succ f =>
      have hbp := bindParams_env args fn.decl.params
        { st with envs := (heapAlloc st.envs { envMap := [], enclosing := Option.some fn.closure }).2 }
        (heapAlloc st.envs { envMap := [], enclosing := Option.some fn.closure }).1
      rcases hb : bindParams
          { st with envs := (heapAlloc st.envs { envMap := [], enclosing := Option.some fn.closure }).2 }
          (heapAlloc st.envs { envMap := [], enclosing := Option.some fn.closure }).1
          fn.decl.params args with ⟨bout, st2⟩
      rw [hb] at hbp
      have heb := executeBlock_env f fn.decl.body
        (heapAlloc st.envs { envMap := [], enclosing := Option.some fn.closure }).1 st2
      rcases he : executeBlock f fn.decl.body
          (heapAlloc st.envs { envMap := [], enclosing := Option.some fn.closure }).1 st2 with ⟨eout, st3⟩
      rw [he] at heb
      show ((callFunction (f+1) fn args st).2).env = st.env
      simp only [callFunction, hb]
      cases bout with
      | error er => exact hbp
      | ok u =>
          simp only [he]
          cases eout with
          | error er =>
              cases er <;> simp only [] <;> rw [heb, hbp]
          | ok u2 =>
              cases hini : fn.isInitializer <;> simp only [hini]
              · simp only [Bool.false_eq_true, if_false]
                rw [heb, hbp]
              · simp only [if_true]
                cases envGetAt st3 fn.closure 0 thisTok <;> simp only [] <;> rw [heb, hbp]

/-- A `Block` statement restores the environment pointer on every exit
path (it allocates a child environment and runs `executeBlock`). -/
theorem execStmt_block_env (fuel : Nat) (stmts : StmtList) (st : IState) :
    ((execStmt fuel (.block stmts) st).2).env = st.env := by
  cases fuel with
  | zero => rfl
  | succ f =>
      show ((execStmt (f+1) (.block stmts) st).2).env = st.env
      simp only [execStmt, heapAlloc]
      exact executeBlock_env f stmts _ _

/-- `VisitClassStmt` restores the environment pointer on every exit path:
the superclass wrapper environment pushed for a subclass is popped via
`i.env = i.env.enclosing`, whose enclosing link was set to the pre-entry
environment at allocation. -/
theorem execStmt_classS_env (fuel : Nat) (name : Token)
    (superC : Option (Token × Int)) (methods : Methods) (st : IState) :
    ((execStmt fuel (.classS name superC methods) st).2).env = st.env := by
  cases fuel with
  | zero => rfl
  | succ f =>
      show ((execStmt (f+1) (.classS name superC methods) st).2).env = st.env
      simp only [execStmt]
      cases superC with
      | none =>
          rw [envAssignDyn_env, envDefine_env]
      | some sup =>
          have hev := evalExpr_variable_state f sup.1 sup.2 st
          rcases he : evalExpr f (.variable sup.1 sup.2) st with ⟨vout, st1⟩
          rw [he] at hev
          subst hev
          simp only [he]
          cases vout with
          | error er => rfl
          | ok v =>
              cases v with
              | nilV => rfl
              | boolV b => rfl
              | numV x => rfl
              | strV s => rfl
              | funcV fn => rfl
              | clockV => rfl
              | instV a => rfl
              | classV sc =>
                  simp only [heapAlloc]
                  rw [envAssignDyn_env]
                  generalize hs2 : envDefine st1 st1.env name.lexeme Value.nilV = s2
                  have hs2e : s2.env = st1.env := by
                    rw [← hs2]; exact envDefine_env st1 st1.env name.lexeme Value.nilV
                  have f1 : heapGet (s2.envs ++
                        [({ envMap := [], enclosing := Option.some s2.env } : Env)])
                      s2.envs.length =
                      Option.some { envMap := [], enclosing := Option.some s2.env } :=
                    heapGet_alloc _ _
                  have f2 : envDefine
                      { s2 with
                        envs := s2.envs ++ [{ envMap := [], enclosing := Option.some s2.env }],
                        env := s2.envs.length }
                      s2.envs.length "super" (Value.classV sc) =
                      { s2 with
                        envs := heapSet
                          (s2.envs ++ [{ envMap := [], enclosing := Option.some s2.env }])
                          s2.envs.length
                          { envMap := assocSet [] "super" (Value.classV sc),
                            enclosing := Option.some s2.env },
                        env := s2.envs.length } := by
                    simp only [envDefine, f1]
                  rw [f2]
                  have f3 : heapGet (heapSet
                        (s2.envs ++ [({ envMap := [], enclosing := Option.some s2.env } : Env)])
                        s2.envs.length
                        ({ envMap := assocSet [] "super" (Value.classV sc),
                           enclosing := Option.some s2.env } : Env)) s2.envs.length =
                      Option.some ({ envMap := assocSet [] "super" (Value.classV sc),
                                     enclosing := Option.some s2.env } : Env) :=
                    heapGet_set _ _ _ _ f1
                  simp only [f3]
                  exact hs2e

/-- C6.  On every exit path — normal completion, a propagating return
unwind, and a propagating runtime error — the current-environment pointer
after a block body (`executeBlock`), a function call (`Function.Call`), a
`Block` statement, or a class declaration (including the
class-with-superclass wrapper environment) equals its value before entry.
The statements quantify over arbitrary interpreter states and outcomes,
so every exit path is covered. -/
theorem c6_environment_restored :
    (∀ (fuel : Nat) (stmts : StmtList) (newEnvA : Nat) (st : IState),
        ((executeBlock fuel stmts newEnvA st).2).env = st.env) ∧
    (∀ (fuel : Nat) (fn : FuncVal) (args : List Value) (st : IState),
        ((callFunction fuel fn args st).2).env = st.env) ∧
    (∀ (fuel : Nat) (stmts : StmtList) (st : IState),
        ((execStmt fuel (.block stmts) st).2).env = st.env) ∧
    (∀ (fuel : Nat) (name : Token) (superC : Option (Token × Int))
        (methods : Methods) (st : IState),
        ((execStmt fuel (.classS name superC methods) st).2).env = st.env) :=
  ⟨executeBlock_env, callFunction_env, execStmt_block_env, execStmt_classS_env⟩

/-- C7.  The `+` dispatch of `VisitBinary` on the evaluated operand
values: two numbers add, two strings concatenate, every other combination
raises a runtime error — and the error raised by `1 + "two"` carries a
message containing `must be numbers`. -/
theorem c7_plus_dispatch :
    (∀ (fuel : Nat) (heap : List InstVal) (lex : String) (lit : Option TokLit)
        (line : Int) (a b : GoFloat),
        binaryOp fuel heap ⟨.PLUS, lex, lit, line⟩ (.numV a) (.numV b) =
          .ok (.numV (a.add b))) ∧
    (∀ (fuel : Nat) (heap : List InstVal) (lex : String) (lit : Option TokLit)
        (line : Int) (s t : String),
        binaryOp fuel heap ⟨.PLUS, lex, lit, line⟩ (.strV s) (.strV t) =
          .ok (.strV (s ++ t))) ∧
    (∀ (fuel : Nat) (heap : List InstVal) (lex : String) (lit : Option TokLit)
        (line : Int) (l r : Value),
        isErr (binaryOp fuel heap ⟨.PLUS, lex, lit, line⟩ l r) =
          !((isNumB l && isNumB r) || (isStrB l && isStrB r))) ∧
    (∃ (ln : Int) (msg : String),
        binaryOp 1 [] ⟨.PLUS, "+", Option.none, 1⟩ (.numV (.finite 1)) (.strV "two") =
          .error (.rte ln msg) ∧ strHas msg "must be numbers" = true) := by
  refine ⟨fun _ _ _ _ _ _ _ => rfl, fun _ _ _ _ _ _ _ => rfl, ?_, 1, _, rfl, by decide⟩
  intro fuel heap lex lit line l r
  cases l <;> cases r <;> rfl

/-- C8.  `VisitLogical` short-circuits: once the left operand's value
decides the result (truthy left under `or`, falsy left under any other
operator, i.e. `and`), the node evaluates to the left operand's value
itself — not a coerced boolean — in the state left by the left operand,
for *every* right operand expression, whose side effects therefore do not
occur; otherwise the node's result is the evaluation of the right operand
in that state. -/
theorem c8_logical_short_circuit :
    ∀ (fuel : Nat) (l : Expr) (op : Token) (r : Expr) (st : IState)
      (v : Value) (st1 : IState),
      evalExpr fuel l st = (.ok v, st1) →
      ((if op.type = .OR then truthy v else !truthy v) = true →
          evalExpr (fuel+1) (.logical l op r) st = (.ok v, st1)) ∧
      ((if op.type = .OR then truthy v else !truthy v) = false →
          evalExpr (fuel+1) (.logical l op r) st = evalExpr fuel r st1) := by
  intro fuel l op r st v st1 h
  constructor
  · intro hc
    simp only [evalExpr, h, hc, if_true]
  · intro hc
    simp only [evalExpr, h, hc, Bool.false_eq_true, if_false]

/-- C8 witness: `true or (x = false)` evaluates to the left value `true`
with the state untouched — the assignment on the right (which would raise
an undefined-variable error if evaluated) never runs. -/
theorem c8_logical_short_circuit_witness :
    evalExpr 2 (.logical (.literal (.b true)) ⟨.OR, "or", Option.none, 1⟩
        (.assign (idTok "x" 1) (.literal (.b false)))) (initState []) =
      (.ok (.boolV true), initState []) :=
  (c8_logical_short_circuit 1 (.literal (.b true)) ⟨.OR, "or", Option.none, 1⟩
      (.assign (idTok "x" 1) (.literal (.b false))) (initState [])
      (.boolV true) (initState []) rfl).1 rfl

/-- C10.  The `/` dispatch of `VisitBinary`: two numbers always divide to
a number (no runtime error is possible on numeric operands — division by
zero yields NaN or an infinity per IEEE-754), and `/` raises a runtime
error exactly when at least one operand is not a number. -/
theorem c10_division_never_errors_on_numbers :
    (∀ (fuel : Nat) (heap : List InstVal) (lex : String) (lit : Option TokLit)
        (line : Int) (a b : GoFloat),
        binaryOp fuel heap ⟨.SLASH, lex, lit, line⟩ (.numV a) (.numV b) =
          .ok (.numV (a.div b))) ∧
    (∀ a : GoFloat, a.div (.finite 0) = .nan ∨ ∃ s, a.div (.finite 0) = .inf s) ∧
    (∀ (fuel : Nat) (heap : List InstVal) (lex : String) (lit : Option TokLit)
        (line : Int) (l r : Value),
        isErr (binaryOp fuel heap ⟨.SLASH, lex, lit, line⟩ l r) =
          !(isNumB l && isNumB r)) := by
  refine ⟨fun _ _ _ _ _ _ _ => rfl, ?_, ?_⟩
  · intro a
    cases a with
    | nan => exact Or.inl rfl
    | inf s => exact Or.inr ⟨_, rfl⟩
    | finite q =>
        by_cases hq : q = 0
        · exact Or.inl (by simp [GoFloat.div, hq])
        · exact Or.inr ⟨decide (q < 0), by simp [GoFloat.div, hq]⟩
  · intro fuel heap lex lit line l r
    cases l <;> cases r <;> rfl

/-- C9 (amended).  On an unterminated string the Scanner fails with a
panic whose message carries the *current* line (the line reached when the
input ends — 2 for a string opened on line 1 containing one newline);
on an unexpected character it fails with a panic naming the character but
carrying no line number. -/
theorem c9_amended_scanner_error_lines :
    scanTokens 50 "\"a\nb" =
      .error (.panicked "Unterminated string starting on line 2") ∧
    scanTokens 50 "\"ab" =
      .error (.panicked "Unterminated string starting on line 1") ∧
    scanTokens 50 "var x = @" = .error (.panicked "unexpected character '@'") := by
  exact ⟨by decide, by decide, by decide⟩

end Lox
